import Mathlib

set_option maxRecDepth 10000

/-! Shallow embedding of the dataset-generation pipeline of this repository
(`02_dataset_generation`): the markdown code-fence extractor `parse_python_code`
of db_graph.py, the `DatabaseExecutor` methods of database_executor.py, and the
checkpoint logic of `__main__.py`.  Python strings are modelled as `List Char`,
Python exceptions as `Option`/explicit outcome types, and the effectful
primitives (subprocess runs, temporary files, the sqlite3 connection, the file
system) as an explicit environment of oracles that fix the outcome of every
external call. -/

/-- Python strings are modelled as lists of characters. -/
abbrev Str := List Char

/-- The backtick character (used to spell the markdown fences). -/
def btick : Char := Char.ofNat 96

/-- The characters removed by Python's `str.strip()` (ASCII whitespace). -/
def isPySpace (c : Char) : Bool :=
  c == ' ' || c == '\t' || c == '\n' || c == '\r' || c == '\x0b' || c == '\x0c'

/-- Python's `str.strip()`: drop ASCII whitespace from both ends. -/
def pyStrip (s : Str) : Str :=
  ((s.dropWhile isPySpace).reverse.dropWhile isPySpace).reverse

/-- Python's `str.upper()` (the strings involved are ASCII). -/
def pyUpper (s : Str) : Str := s.map Char.toUpper

/-- First-occurrence search: `breakOn sep s = some (pre, post)` when
`s = pre ++ sep ++ post` with `pre` shortest, and `none` when `sep` does not
occur in `s`. -/
def breakOn (sep : Str) : Str → Option (Str × Str)
  | [] => none
  | c :: rest =>
    if sep.isPrefixOf (c :: rest) then some ([], (c :: rest).drop sep.length)
    else
      match breakOn sep rest with
      | none => none
      | some (pre, post) => some (c :: pre, post)

/-- Python's substring test `sub in s` (all patterns used below are nonempty;
the equivalence with `List.IsInfix` is proved further down). -/
def pyContains (s sub : Str) : Bool := (breakOn sub s).isSome

/-- Fuel-indexed worker for Python's `str.split(sep)`; fuel `s.length` always
suffices because every recursive step consumes at least one character. -/
def pySplitFuel (sep : Str) : Nat → Str → List Str
  | 0, s => [s]
  | fuel + 1, s =>
    match breakOn sep s with
    | none => [s]
    | some (pre, post) => pre :: pySplitFuel sep fuel post

/-- Python's `str.split(sep)` for a nonempty separator string. -/
def pySplit (sep s : Str) : List Str :=
  if sep.isEmpty then [s] else pySplitFuel sep s.length s

/-- Python's `str.replace(old, new)` for nonempty `old`: split and re-join. -/
def pyReplace (old new s : Str) : Str := List.intercalate new (pySplit old s)

/-- The opening fence with language tag looked for first by
`parse_python_code`. -/
def fencePy : Str := ("```python").toList

/-- A bare markdown fence. -/
def fenceTok : Str := ("```").toList

/-- The separator of `code.split('\n')`. -/
def newlineTok : Str := ("\n").toList

/-- The `python_indicators` literal of `parse_python_code`. -/
def pythonIndicators : List Str :=
  [("import ").toList, ("from ").toList, ("def ").toList, ("class ").toList,
   ("engine = ").toList, ("Base = ").toList, ("Column(").toList, ("@").toList,
   ("if __name__").toList, ("sqlalchemy").toList, ("create_engine").toList,
   ("session.").toList, ("models.").toList, ("fake.").toList,
   ("parser.add_argument").toList]

/-- One line of the heuristic scan: `any(indicator in line for indicator in
python_indicators)`. -/
def hasIndicator (line : Str) : Bool :=
  pythonIndicators.any (fun ind => pyContains line ind)

/-- The line-collection loop of `parse_python_code`: once a line containing an
indicator has been seen (`found_code`), every later line whose stripped form is
nonempty is kept (the original line, not the stripped one). -/
def indicatorLoop : Bool → List Str → List Str
  | _, [] => []
  | found, line :: rest =>
    let found2 := found || hasIndicator line
    if found2 && !(pyStrip line).isEmpty then line :: indicatorLoop found2 rest
    else indicatorLoop found2 rest

/-- The emergency-fallback literal of `parse_python_code`. -/
def noCodeTok : Str := ("# No valid code could be extracted").toList

/-- The tail of `parse_python_code` reached when no usable fenced block exists:
heuristic line collection joined with newlines, else the input with fences
removed and stripped, else a placeholder comment. -/
def fallbackExtract (code : Str) : Str :=
  let code_lines := indicatorLoop false (pySplit newlineTok code)
  if code_lines.isEmpty then
    let cleaned := pyStrip (pyReplace fenceTok [] code)
    if cleaned.isEmpty then noCodeTok else cleaned
  else List.intercalate newlineTok code_lines

/-- `parse_python_code` of db_graph.py.  List indexing after a split is modelled
by `List.get?`; a `none` result of the whole function is an uncaught Python
`IndexError`.  The second branch falls through to `fallbackExtract` when the
generic split has fewer than 3 parts or the extracted piece strips to empty,
exactly as in the source. -/
def parse_python_code (code : Str) : Option Str :=
  if pyContains code fencePy then
    match (pySplit fencePy code).get? 1 with
    | none => none
    | some afterTag =>
      match (pySplit fenceTok afterTag).get? 0 with
      | none => none
      | some piece => some (pyStrip piece)
  else if pyContains code fenceTok then
    if 3 ≤ (pySplit fenceTok code).length then
      match (pySplit fenceTok code).get? 1 with
      | none => none
      | some part =>
        let extracted := pyStrip part
        if extracted.isEmpty then some (fallbackExtract code) else some extracted
    else some (fallbackExtract code)
  else some (fallbackExtract code)

/-- One question/SQL dict; `pair.get("question", "")` reads an optional key, so
the keys are `Option`s read with a default. -/
structure PairDict where
  question : Option Str
  sql : Option Str
deriving DecidableEq

/-- The `question_sql_pairs` entry of a database dict
(`.get("questions", [])`). -/
structure QuestionsDict where
  questions : List PairDict
deriving DecidableEq

/-- One element of `state["databases"]`: the `DatabaseState` dict produced by
the per-database subgraph.  Any key may be absent on a partial artifact. -/
structure DatabaseInfo where
  database_request : Option Str
  database_models : Option Str
  populate_database_script : Option Str
  question_sql_pairs : Option QuestionsDict
deriving DecidableEq

/-- The aggregated pipeline `State` of main_graph.py (also the parsed shape of
the `state.json` checkpoint file). -/
structure State where
  company_descriptions : List Str
  databases : List DatabaseInfo
  num_requests : Nat
deriving DecidableEq

/-- A value produced by executing one SQL statement: the rows fetched by a
SELECT-like query, or the affected-row count of any other statement. -/
inductive Answer
  | rows (rs : List (List Int))
  | count (n : Int)
deriving DecidableEq

/-- One output record of the validator (a row of the validated dataset). -/
structure ValidationResult where
  db_path : Str
  question : Str
  query : Str
  answer : Option Answer
  is_valid : Bool
  error : Option Str
deriving DecidableEq

/-- Outcome of `subprocess.run` on a generated script: a completed process, a
`TimeoutExpired`, or any other exception (message of `str(e)`). -/
inductive RunOutcome
  | completed (returncode : Int) (stdout : Str) (stderr : Str)
  | timedOut
  | exn (msg : Str)
deriving DecidableEq

/-- Outcome of `tempfile.NamedTemporaryFile`: a fresh path, or an exception. -/
inductive TempResult
  | ok (path : Str)
  | err (msg : Str)
deriving DecidableEq

/-- Oracle environment fixing every effectful primitive used by
`DatabaseExecutor`: existence/unlink of a stale database file and temp-file
creation are keyed by database index (and temp slot), `subprocess.run` by the
script path and extra command-line arguments, and the sqlite3 calls by database
path and query text.  `rewrite` models the regex rewrite of embedded
`sqlite:///...db` connection strings opaquely (its output is what is written
back and executed). -/
structure Env where
  db_folder : Str
  dbExists : Nat → Bool
  dbUnlinkErr : Nat → Option Str
  mkTemp : Nat → Nat → TempResult
  rewrite : Str → Str → Str
  run : Str → List Str → RunOutcome
  connectErr : Str → Option Str
  executeErr : Str → Str → Option Str
  fetchall : Str → Str → List (List Int)
  rowcount : Str → Str → Int

/-- Result of `_execute_sql_query`, with the `conn.commit()` side effect
recorded in `committed`. -/
structure SqlCallResult where
  success : Bool
  result : Option Answer
  error : Str
  committed : Bool
deriving DecidableEq

/-- The SELECT test of `_execute_sql_query`:
`query.strip().upper().startswith("SELECT")`. -/
def isSelectLike (q : Str) : Bool :=
  ("SELECT").toList.isPrefixOf (pyUpper (pyStrip q))

/-- Message of the `UnboundLocalError` raised inside the `except` handler of
`_execute_sql_query`: when `sqlite3.connect` itself raised, the local `conn`
was never assigned, so the handler's `conn.close()` raises, and the inner
`except (sqlite3.Error, AttributeError)` guard does not catch it. -/
def unboundLocalConnTok : Str :=
  ("cannot access local variable 'conn' where it is not associated with a value").toList

/-- `_execute_sql_query`.  When `sqlite3.connect` raises, the `except
Exception` handler evaluates `conn.close()` on the unbound local `conn`; the
resulting `UnboundLocalError` escapes the handler's narrow guard, so the call
propagates an exception (`Except.error`, which replaces the original connect
error) instead of returning a tuple.  When `cursor.execute` raises, `conn` is
bound, cleanup succeeds, and the exception is folded into
`(False, None, str(e))`.  A successful SELECT-like query fetches all rows; any
other statement reports `cursor.rowcount` and commits. -/
def execute_sql_query (env : Env) (db_path q : Str) :
    Except Str SqlCallResult :=
  match env.connectErr db_path with
  | some _ => Except.error unboundLocalConnTok
  | none =>
    match env.executeErr db_path q with
    | some m => Except.ok ⟨false, none, m, false⟩
    | none =>
      if isSelectLike q then
        Except.ok ⟨true, some (Answer.rows (env.fetchall db_path q)), [], false⟩
      else
        Except.ok ⟨true, some (Answer.count (env.rowcount db_path q)), [], true⟩

/-- `validate_queries`: one record per question/SQL pair, in input order, built
from the tuple `_execute_sql_query` returns.  An exception propagating out of
`_execute_sql_query` (the unguarded connect-failure path) is not caught by the
loop, so it aborts the whole batch and discards the records built so far. -/
def validate_queries (env : Env) (db_path : Str) :
    List PairDict → Except Str (List ValidationResult)
  | [] => Except.ok []
  | pair :: rest =>
    match execute_sql_query env db_path (pair.sql.getD []) with
    | Except.error m => Except.error m
    | Except.ok r =>
      match validate_queries env db_path rest with
      | Except.error m => Except.error m
      | Except.ok rs =>
        Except.ok
          ({ db_path := db_path
             question := pair.question.getD []
             query := pair.sql.getD []
             answer := if r.success then r.result else none
             is_valid := r.success
             error := if r.success then none else some r.error } :: rs)

/-- Token detected in a population script to choose the calling convention. -/
def argparseTok : Str := ("argparse").toList

/-- The input flag token and argument. -/
def inputFlagTok : Str := ("--input").toList

/-- The output flag argument. -/
def outputFlagTok : Str := ("--output").toList

/-- Command-line arguments chosen by `_execute_python_file`: a population
script run with a models file that mentions `argparse` and `--input` gets
explicit `--input`/`--output` arguments, every other script gets none (the
interpreter and script path are passed separately to the runner). -/
def scriptArgs (code : Str) (models_file_path : Option Str) (db_path : Str) :
    List Str :=
  match models_file_path with
  | some mf =>
    if pyContains code argparseTok && pyContains code inputFlagTok then
      [inputFlagTok, mf, outputFlagTok, db_path]
    else []
  | none => []

/-- Message fragments of `_execute_python_file`. -/
def scriptFailTok : Str := ("Script failed with return code ").toList

/-- Fragment prepended to a captured stderr. -/
def stderrTok : Str := ("\nSTDERR: ").toList

/-- Fragment prepended to a captured stdout. -/
def stdoutTok : Str := ("\nSTDOUT: ").toList

/-- Message returned on `subprocess.TimeoutExpired`. -/
def timeoutTok : Str := ("Script execution timed out").toList

/-- Python's `str(n)` for the integers appearing in messages. -/
def intStr (i : Int) : Str :=
  if i < 0 then '-' :: Nat.toDigits 10 i.natAbs else Nat.toDigits 10 i.natAbs

/-- Failure message assembled from a completed process with non-zero return
code: the code, then the captured stderr (when nonempty), then the captured
stdout (when nonempty). -/
def scriptFailMsg (rc : Int) (out err : Str) : Str :=
  scriptFailTok ++ intStr rc
    ++ (if err.isEmpty then [] else stderrTok ++ err)
    ++ (if out.isEmpty then [] else stdoutTok ++ out)

/-- `_execute_python_file`: rewrite the embedded database path in the file's
content (`file_code` is what was written to `file_path`), choose the calling
convention, run the script, and fold every failure — non-zero exit, timeout,
or exception — into `(False, message)`. -/
def execute_python_file (env : Env) (file_path file_code db_path : Str)
    (models_file_path : Option Str) : Bool × Str :=
  let code := env.rewrite db_path file_code
  match env.run file_path (scriptArgs code models_file_path db_path) with
  | RunOutcome.completed rc out err =>
    if rc = 0 then (true, []) else (false, scriptFailMsg rc out err)
  | RunOutcome.timedOut => (false, timeoutTok)
  | RunOutcome.exn m => (false, m)

/-- Result of `create_and_populate_database`, with the temporary files the call
created and the files its `finally` block removed recorded on every exit
path. -/
structure CreateDbResult where
  db_path : Str
  success : Bool
  error : Str
  tempsCreated : List Str
  tempsRemoved : List Str
deriving DecidableEq

/-- Message fragments of `create_and_populate_database`. -/
def unexpectedTok : Str := ("Unexpected error: ").toList

/-- Prefix of a schema-stage failure. -/
def schemaFailTok : Str := ("Failed to create schema: ").toList

/-- Prefix of a population-stage failure. -/
def popFailTok : Str := ("Failed to populate database: ").toList

/-- `str(KeyError('database_models'))`. -/
def keyModelsTok : Str := ("'database_models'").toList

/-- `str(KeyError('populate_database_script'))`. -/
def keyPopulateTok : Str := ("'populate_database_script'").toList

/-- The resolved path `db_folder / f"database_{db_index}.db"`. -/
def dbFilePath (env : Env) (i : Nat) : Str :=
  env.db_folder ++ ("/database_").toList ++ Nat.toDigits 10 i ++ (".db").toList

/-- `create_and_populate_database`.  The `try` body raises at the unlink of a
stale database file, at a missing dict key (`KeyError`), and at temp-file
creation; each is routed to the `except` branch exactly as in the source.  The
`finally` block removes whichever temp files were created, on every exit path.
`_validate_database_populated` only logs and never changes the result, so it is
omitted. -/
def create_and_populate_database (env : Env) (info : DatabaseInfo) (i : Nat) :
    CreateDbResult :=
  let db_path := dbFilePath env i
  match (if env.dbExists i then env.dbUnlinkErr i else none) with
  | some m => ⟨db_path, false, unexpectedTok ++ m, [], []⟩
  | none =>
    match info.database_models with
    | none => ⟨db_path, false, unexpectedTok ++ keyModelsTok, [], []⟩
    | some mcode =>
      match env.mkTemp i 0 with
      | TempResult.err m => ⟨db_path, false, unexpectedTok ++ m, [], []⟩
      | TempResult.ok models_file =>
        let r1 := execute_python_file env models_file mcode db_path none
        if r1.1 = false then
          ⟨db_path, false, schemaFailTok ++ r1.2, [models_file], [models_file]⟩
        else
          match info.populate_database_script with
          | none =>
            ⟨db_path, false, unexpectedTok ++ keyPopulateTok,
              [models_file], [models_file]⟩
          | some pcode =>
            match env.mkTemp i 1 with
            | TempResult.err m =>
              ⟨db_path, false, unexpectedTok ++ m, [models_file], [models_file]⟩
            | TempResult.ok populate_file =>
              let r2 :=
                execute_python_file env populate_file pcode db_path
                  (some models_file)
              if r2.1 = false then
                ⟨db_path, false, popFailTok ++ r2.2,
                  [models_file, populate_file], [models_file, populate_file]⟩
              else
                ⟨db_path, true, [],
                  [models_file, populate_file], [models_file, populate_file]⟩

/-- Prefix of the error recorded when a database could not be realized. -/
def dbCreationFailedTok : Str := ("Database creation failed: ").toList

/-- Body of the loop of `process_main_graph_output` for one database: on
creation failure emit one invalid record per question pair (and `continue`),
otherwise validate the queries against the realized database.  An exception
escaping `validate_queries` is not caught here and propagates. -/
def processDb (env : Env) (i : Nat) (info : DatabaseInfo) :
    Except Str (List ValidationResult) :=
  let r := create_and_populate_database env info i
  let pairs := (info.question_sql_pairs.getD ⟨[]⟩).questions
  if r.success = false then
    Except.ok (pairs.map (fun pair =>
      { db_path := r.db_path
        question := pair.question.getD []
        query := pair.sql.getD []
        answer := none
        is_valid := false
        error := some (dbCreationFailedTok ++ r.error) }))
  else validate_queries env r.db_path pairs

/-- The enumeration `for i, database_info in enumerate(state["databases"])`;
an exception raised while processing one database aborts the loop and discards
the results accumulated so far. -/
def processFrom (env : Env) :
    Nat → List DatabaseInfo → Except Str (List ValidationResult)
  | _, [] => Except.ok []
  | i, info :: rest =>
    match processDb env i info with
    | Except.error m => Except.error m
    | Except.ok rs =>
      match processFrom env (i + 1) rest with
      | Except.error m => Except.error m
      | Except.ok out => Except.ok (rs ++ out)

/-- `process_main_graph_output`: concatenate the per-database results; an
uncaught exception from SQL validation aborts the whole run. -/
def process_main_graph_output (env : Env) (state : State) :
    Except Str (List ValidationResult) :=
  processFrom env 0 state.databases

/-- Environment of `__main__.main`: whether `state.json` exists in the output
directory, its parsed contents when it does, and the main generation graph as
an oracle from the requested database count to the state it would produce. -/
structure MainEnv where
  stateFileExists : Bool
  stateOnDisk : State
  runMainGraph : Nat → State

/-- The checkpoint logic of `__main__.main` (lines 60-77): when `state.json`
exists its parsed contents become the pipeline state used by the rest of the
run; only otherwise is the main generation graph — the sole LLM-calling path of
the program — invoked (and the fresh state saved).  The Boolean component
records that invocation. -/
def loadOrGenerateState (env : MainEnv) (num_databases : Nat) : State × Bool :=
  if env.stateFileExists then (env.stateOnDisk, false)
  else (env.runMainGraph num_databases, true)

/-- A benign oracle environment: no stale files, temp creation succeeds, every
script exits 0, every query succeeds with no rows. -/
def benignEnv : Env where
  db_folder := []
  dbExists := fun _ => false
  dbUnlinkErr := fun _ => none
  mkTemp := fun _ _ => TempResult.ok (("tmp.py").toList)
  rewrite := fun _ c => c
  run := fun _ _ => RunOutcome.completed 0 [] []
  connectErr := fun _ => none
  executeErr := fun _ _ => none
  fetchall := fun _ _ => []
  rowcount := fun _ _ => 0

/-- An environment whose `sqlite3.connect` raises (as it does for any database
path inside a nonexistent directory). -/
def connFailEnv : Env :=
  { benignEnv with
    connectErr := fun _ => some (("unable to open database file").toList) }

/-- An environment where the schema script succeeds and the population script
exits with code 1 and stderr `IntegrityError`. -/
def popFailEnv : Env :=
  { benignEnv with
    mkTemp := fun _ j =>
      TempResult.ok (if j = 0 then ("m.py").toList else ("p.py").toList)
    run := fun path _ =>
      if path = ("m.py").toList then RunOutcome.completed 0 [] []
      else RunOutcome.completed 1 [] (("IntegrityError").toList) }

/-- A partial artifact: every generation sub-stage failed, so every key is
absent. -/
def emptyInfo : DatabaseInfo := ⟨none, none, none, none⟩

/-- A partial artifact that still carries one question/SQL pair. -/
def partialInfoWithPair : DatabaseInfo :=
  ⟨none, none, none, some ⟨[⟨some (("q1").toList), some (("SELECT 1").toList)⟩]⟩⟩

/-- A complete artifact with one question/SQL pair. -/
def fullInfo : DatabaseInfo :=
  ⟨some (("req").toList), some (("schema code").toList),
   some (("populate code").toList),
   some ⟨[⟨some (("q1").toList), some (("SELECT 1").toList)⟩]⟩⟩

/-- The question/SQL pair used by the concrete witnesses. -/
def pair1 : PairDict := ⟨some (("q1").toList), some (("SELECT 1").toList)⟩

/-- The record produced by validating `pair1` in `benignEnv`. -/
def recSelectOk : ValidationResult :=
  { db_path := []
    question := ("q1").toList
    query := ("SELECT 1").toList
    answer := some (Answer.rows [])
    is_valid := true
    error := none }

/-- The record produced for `pair1` when the artifact lacks its models. -/
def recCreateFailed : ValidationResult :=
  { db_path := ("/database_0.db").toList
    question := ("q1").toList
    query := ("SELECT 1").toList
    answer := none
    is_valid := false
    error := some
      (("Database creation failed: Unexpected error: 'database_models'").toList) }

/-- The record produced for `pair1` when the population script exits 1 with
stderr `IntegrityError`. -/
def recPopFail : ValidationResult :=
  { db_path := ("/database_0.db").toList
    question := ("q1").toList
    query := ("SELECT 1").toList
    answer := none
    is_valid := false
    error := some
      (("Database creation failed: Failed to populate database: " ++
        "Script failed with return code 1\nSTDERR: IntegrityError").toList) }

/-- A concrete checkpoint state on disk. -/
def stateDisk : State := ⟨[("acme").toList], [fullInfo], 2⟩

/-- A main environment whose checkpoint file exists. -/
def mainEnvW : MainEnv := ⟨true, stateDisk, fun n => ⟨[], [], n⟩⟩

/-! Theory of the Python string primitives. -/

/-- Boolean prefix test reflects `List.IsPrefix`. -/
theorem isPrefixOf_true_iff : ∀ (l₁ l₂ : Str), l₁.isPrefixOf l₂ = true ↔ l₁ <+: l₂
  | [], l₂ => by simp [List.isPrefixOf, List.nil_prefix]
  | a :: l₁, [] => by simp [List.isPrefixOf]
  | a :: l₁, b :: l₂ => by
    simp [List.isPrefixOf, List.cons_prefix_cons, isPrefixOf_true_iff l₁ l₂,
      Bool.and_eq_true, beq_iff_eq]

/-- A list is a Boolean prefix of itself followed by anything. -/
theorem isPrefixOf_append_self : ∀ (l t : Str), l.isPrefixOf (l ++ t) = true
  | [], _ => by simp [List.isPrefixOf]
  | a :: l, t => by simp [List.isPrefixOf, isPrefixOf_append_self l t]

/-- `breakOn` returns `none` exactly when the separator does not occur. -/
theorem breakOn_eq_none_iff (sep : Str) (hsep : sep ≠ []) :
    ∀ s : Str, breakOn sep s = none ↔ ¬ sep <:+: s := by
  intro s
  induction s with
  | nil => simp [breakOn, List.infix_nil, hsep]
  | cons c rest ih =>
    cases hpre : sep.isPrefixOf (c :: rest) with
    | true =>
      have hp : sep <+: c :: rest := (isPrefixOf_true_iff sep (c :: rest)).mp hpre
      simp only [breakOn, hpre, if_true]
      simp [hp.isInfix]
    | false =>
      have hnp : ¬ sep <+: c :: rest := by
        intro hp
        rw [← isPrefixOf_true_iff] at hp
        simp [hpre] at hp
      simp only [breakOn, hpre, if_false, Bool.false_eq_true]
      cases hbr : breakOn sep rest with
      | none =>
        have hni : ¬ sep <:+: rest := (ih).mp hbr
        simp [List.infix_cons_iff, hnp, hni]
      | some pq =>
        have hi : sep <:+: rest := by
          by_contra hni
          rw [← ih] at hni
          simp [hbr] at hni
        simp [List.infix_cons_iff, hi]

/-- When `breakOn` finds an occurrence the remainder is strictly shorter. -/
theorem breakOn_some_length (sep : Str) (hsep : sep ≠ []) :
    ∀ (s pre post : Str), breakOn sep s = some (pre, post) →
      post.length < s.length := by
  intro s
  induction s with
  | nil => intro pre post h; simp [breakOn] at h
  | cons c rest ih =>
    intro pre post h
    by_cases hpre : sep.isPrefixOf (c :: rest) = true
    · simp only [breakOn, hpre, if_true] at h
      have hlen : 1 ≤ sep.length := by
        cases sep with
        | nil => exact absurd rfl hsep
        | cons a l => simp
      have := congrArg Prod.snd (Option.some.inj h)
      simp only at this
      rw [← this]
      simp only [List.length_drop, List.length_cons]
      omega
    · simp only [breakOn, hpre, if_false] at h
      cases hbr : breakOn sep rest with
      | none => rw [hbr] at h; simp at h
      | some pq =>
        rw [hbr] at h
        obtain ⟨p', q'⟩ := pq
        have := Option.some.inj h
        have hq : post = q' := by
          have := congrArg Prod.snd this
          simpa using this.symm
        have := ih p' q' hbr
        subst hq
        simp only [List.length_cons]
        omega

/-- Splitting the empty string gives one empty part, whatever the fuel. -/
theorem pySplitFuel_nil (sep : Str) : ∀ f, pySplitFuel sep f [] = [[]] := by
  intro f
  cases f with
  | zero => rfl
  | succ f => simp [pySplitFuel, breakOn]

/-- The fuelled splitter never returns the empty list. -/
theorem pySplitFuel_ne_nil (sep : Str) : ∀ (f : Nat) (s : Str),
    pySplitFuel sep f s ≠ [] := by
  intro f s
  cases f with
  | zero => simp [pySplitFuel]
  | succ f =>
    simp only [pySplitFuel]
    cases hbr : breakOn sep s with
    | none => simp
    | some pq => simp

/-- Any fuel at least the string length computes the same split. -/
theorem pySplitFuel_congr (sep : Str) (hsep : sep ≠ []) :
    ∀ (f1 : Nat) (f2 : Nat) (s : Str), s.length ≤ f1 → s.length ≤ f2 →
      pySplitFuel sep f1 s = pySplitFuel sep f2 s := by
  intro f1
  induction f1 with
  | zero =>
    intro f2 s h1 h2
    have hs : s = [] := List.length_eq_zero.mp (Nat.le_zero.mp h1)
    subst hs
    rw [pySplitFuel_nil, pySplitFuel_nil]
  | succ f1 ih =>
    intro f2 s h1 h2
    cases f2 with
    | zero =>
      have hs : s = [] := List.length_eq_zero.mp (Nat.le_zero.mp h2)
      subst hs
      rw [pySplitFuel_nil, pySplitFuel_nil]
    | succ f2 =>
      simp only [pySplitFuel]
      cases hbr : breakOn sep s with
      | none => rfl
      | some pq =>
        obtain ⟨pre, post⟩ := pq
        have hlt := breakOn_some_length sep hsep s pre post hbr
        have hle1 : post.length ≤ f1 := by omega
        have hle2 : post.length ≤ f2 := by omega
        show pre :: pySplitFuel sep f1 post = pre :: pySplitFuel sep f2 post
        rw [ih f2 post hle1 hle2]

/-- `pySplit` never returns the empty list. -/
theorem pySplit_ne_nil (sep s : Str) : pySplit sep s ≠ [] := by
  unfold pySplit
  by_cases h : sep.isEmpty = true
  · simp [h]
  · simp only [h, if_false, Bool.false_eq_true]
    exact pySplitFuel_ne_nil sep s.length s

/-- When the separator does not occur, the split is the whole string. -/
theorem pySplit_no_match (sep s : Str) (h : ¬ sep <:+: s) :
    pySplit sep s = [s] := by
  have hsep : sep ≠ [] := by
    intro hn
    subst hn
    exact h (List.nil_infix)
  have hne : sep.isEmpty = false := by
    cases sep with
    | nil => exact absurd rfl hsep
    | cons a l => rfl
  unfold pySplit
  rw [hne]
  simp only [Bool.false_eq_true, if_false]
  cases hL : s.length with
  | zero => rfl
  | succ k =>
    simp only [pySplitFuel]
    rw [(breakOn_eq_none_iff sep hsep s).mpr h]

/-- When the separator occurs, the split has at least two parts. -/
theorem two_le_pySplit_length_of_occurs (sep s : Str) (hsep : sep ≠ [])
    (h : sep <:+: s) : 2 ≤ (pySplit sep s).length := by
  have hne : sep.isEmpty = false := by
    cases sep with
    | nil => exact absurd rfl hsep
    | cons a l => rfl
  have hs : s ≠ [] := by
    intro hn
    subst hn
    exact hsep (List.infix_nil.mp h)
  have hL : ∃ k, s.length = k + 1 := by
    cases s with
    | nil => exact absurd rfl hs
    | cons c rest => exact ⟨rest.length, by simp⟩
  obtain ⟨k, hk⟩ := hL
  unfold pySplit
  rw [hne]
  simp only [Bool.false_eq_true, if_false, hk]
  have hbr : ∃ pq, breakOn sep s = some pq := by
    cases hb : breakOn sep s with
    | none => exact absurd ((breakOn_eq_none_iff sep hsep s).mp hb) (not_not.mpr h)
    | some pq => exact ⟨pq, rfl⟩
  obtain ⟨⟨pre, post⟩, hb⟩ := hbr
  simp only [pySplitFuel, hb]
  have := pySplitFuel_ne_nil sep k post
  cases hq : pySplitFuel sep k post with
  | nil => exact absurd hq this
  | cons x xs => simp

/-- `pyContains` is the substring relation (for a nonempty pattern). -/
theorem pyContains_true_iff (s sub : Str) (hsub : sub ≠ []) :
    pyContains s sub = true ↔ sub <:+: s := by
  unfold pyContains
  cases hb : breakOn sub s with
  | none =>
    have := (breakOn_eq_none_iff sub hsub s).mp hb
    simp [this]
  | some pq =>
    have hi : sub <:+: s := by
      by_contra hni
      rw [← breakOn_eq_none_iff sub hsub s] at hni
      rw [hb] at hni
      exact Option.noConfusion hni
    simp [hi]

/-- `breakOn` on a string beginning with the separator splits there. -/
theorem breakOn_self_append (sep rest : Str) (hsep : sep ≠ []) :
    breakOn sep (sep ++ rest) = some ([], rest) := by
  cases sep with
  | nil => exact absurd rfl hsep
  | cons a sep' =>
    rw [List.cons_append]
    simp only [breakOn]
    rw [show a :: (sep' ++ rest) = (a :: sep') ++ rest from rfl]
    rw [isPrefixOf_append_self (a :: sep') rest]
    simp [List.drop_left]

/-- A head-character mismatch moves `breakOn` one character to the right. -/
theorem breakOn_cons_ne (a : Char) (sep' : Str) (c : Char) (s : Str)
    (hne : c ≠ a) :
    breakOn (a :: sep') (c :: s) =
      (breakOn (a :: sep') s).map (fun pq => (c :: pq.1, pq.2)) := by
  have hpre : (a :: sep').isPrefixOf (c :: s) = false := by
    simp only [List.isPrefixOf, Bool.and_eq_false_iff]
    left
    exact beq_eq_false_iff_ne.mpr (Ne.symm hne)
  simp only [breakOn, hpre, if_false, Bool.false_eq_true]
  cases hbr : breakOn (a :: sep') s with
  | none => rfl
  | some pq => rfl

/-- `breakOn` skips over a block that lacks the separator's first character. -/
theorem breakOn_append_of_notMem (a : Char) (sep' : Str) (tail : Str) :
    ∀ body : Str, a ∉ body →
      breakOn (a :: sep') (body ++ tail) =
        (breakOn (a :: sep') tail).map (fun pq => (body ++ pq.1, pq.2)) := by
  intro body
  induction body with
  | nil =>
    intro _
    simp only [List.nil_append]
    cases hbr : breakOn (a :: sep') tail with
    | none => rfl
    | some pq => simp
  | cons c body' ih =>
    intro hmem
    have hca : c ≠ a := by
      intro hc
      exact hmem (by rw [hc]; exact List.mem_cons_self a body')
    have hmem' : a ∉ body' := fun h => hmem (List.mem_cons_of_mem c h)
    rw [List.cons_append, breakOn_cons_ne a sep' c (body' ++ tail) hca,
      ih hmem']
    cases hbr : breakOn (a :: sep') tail with
    | none => rfl
    | some pq => simp

/-- Splitting a string that starts with the separator yields a leading empty
part. -/
theorem pySplit_self_append (sep rest : Str) (hsep : sep ≠ []) :
    pySplit sep (sep ++ rest) = [] :: pySplit sep rest := by
  have hne : sep.isEmpty = false := by
    cases sep with
    | nil => exact absurd rfl hsep
    | cons a l => rfl
  have hsl : 1 ≤ sep.length := by
    cases sep with
    | nil => exact absurd rfl hsep
    | cons a l => simp
  unfold pySplit
  rw [hne]
  simp only [Bool.false_eq_true, if_false]
  have hL : (sep ++ rest).length = (sep.length + rest.length - 1) + 1 := by
    simp only [List.length_append]
    omega
  rw [hL]
  simp only [pySplitFuel, breakOn_self_append sep rest hsep]
  rw [pySplitFuel_congr sep hsep (sep.length + rest.length - 1) rest.length rest
    (by omega) (Nat.le_refl _)]

/-- A pattern containing a backtick cannot occur in backtick-free text. -/
theorem not_infix_of_btick_notMem (sub body : Str) (hsub : btick ∈ sub)
    (hbt : btick ∉ body) : ¬ sub <:+: body :=
  fun h => hbt (h.subset hsub)

/-- The tagged fence does not occur in backtick-free text followed by a bare
fence (an occurrence would put a fence inside the text). -/
theorem not_infix_fencePy_append (body : Str) (hbt : btick ∉ body) :
    ¬ fencePy <:+: body ++ fenceTok := by
  have h1 := breakOn_append_of_notMem btick (("``python").toList) fenceTok body hbt
  rw [show btick :: ("``python").toList = fencePy from by decide] at h1
  rw [show breakOn fencePy fenceTok = none from by decide] at h1
  have hnone : breakOn fencePy (body ++ fenceTok) = none := by
    rw [h1]
    rfl
  exact (breakOn_eq_none_iff fencePy (by decide) (body ++ fenceTok)).mp hnone

/-- Splitting backtick-free text followed by a bare fence on that fence gives
the text and one trailing empty part. -/
theorem pySplit_fenceTok_append (body : Str) (hbt : btick ∉ body) :
    pySplit fenceTok (body ++ fenceTok) = [body, []] := by
  have hbr : breakOn fenceTok (body ++ fenceTok) = some (body, []) := by
    have h1 := breakOn_append_of_notMem btick (("``").toList) fenceTok body hbt
    rw [show btick :: ("``").toList = fenceTok from by decide] at h1
    rw [show breakOn fenceTok fenceTok = some ([], []) from by decide] at h1
    rw [h1]
    simp
  have hL : (body ++ fenceTok).length = (body.length + 2) + 1 := by
    simp only [List.length_append]
    have h3 : fenceTok.length = 3 := by decide
    omega
  unfold pySplit
  rw [show fenceTok.isEmpty = false from by decide]
  simp only [Bool.false_eq_true, if_false]
  rw [hL]
  simp only [pySplitFuel, hbr]
  rfl

/-- When no line has an indicator the collection loop keeps nothing. -/
theorem indicatorLoop_eq_nil : ∀ lines : List Str,
    (∀ l ∈ lines, hasIndicator l = false) → indicatorLoop false lines = [] := by
  intro lines
  induction lines with
  | nil => intro _; rfl
  | cons line rest ih =>
    intro h
    have hl : hasIndicator line = false := h line (List.mem_cons_self line rest)
    simp only [indicatorLoop, hl, Bool.or_false, Bool.false_and,
      Bool.false_eq_true, if_false]
    exact ih (fun l hm => h l (List.mem_cons_of_mem line hm))

/-- Replacing a pattern that does not occur is the identity. -/
theorem pyReplace_no_match (old new s : Str) (h : ¬ old <:+: s) :
    pyReplace old new s = s := by
  unfold pyReplace
  rw [pySplit_no_match old s h]
  simp [List.intercalate]

/-- C5 (amended): for a text that is exactly one `python`-tagged fenced block
whose body is backtick-free, has no line containing a Python-code indicator,
and does not strip to the empty string, extraction from the fenced text equals
extraction from the text with the fence markers removed (both return the
stripped body). -/
theorem parse_python_code_fence_idempotent (body : Str)
    (hbt : btick ∉ body)
    (hind : ∀ line ∈ pySplit newlineTok body, hasIndicator line = false)
    (hne : pyStrip body ≠ []) :
    parse_python_code (fencePy ++ body ++ fenceTok) = parse_python_code body := by
  rw [List.append_assoc fencePy body fenceTok]
  have hc1 : pyContains (fencePy ++ (body ++ fenceTok)) fencePy = true := by
    unfold pyContains
    rw [breakOn_self_append fencePy (body ++ fenceTok) (by decide)]
    rfl
  have hs1 : pySplit fencePy (fencePy ++ (body ++ fenceTok))
      = [[], body ++ fenceTok] := by
    rw [pySplit_self_append fencePy (body ++ fenceTok) (by decide),
      pySplit_no_match fencePy (body ++ fenceTok)
        (not_infix_fencePy_append body hbt)]
  have hs2 : pySplit fenceTok (body ++ fenceTok) = [body, []] :=
    pySplit_fenceTok_append body hbt
  have hLHS : parse_python_code (fencePy ++ (body ++ fenceTok))
      = some (pyStrip body) := by
    simp [parse_python_code, hc1, hs1, hs2]
  have hf1 : pyContains body fencePy = false := by
    cases hcb : pyContains body fencePy with
    | false => rfl
    | true =>
      have hi := (pyContains_true_iff body fencePy (by decide)).mp hcb
      exact ((hbt (hi.subset (by decide))).elim)
  have hf2 : pyContains body fenceTok = false := by
    cases hcb : pyContains body fenceTok with
    | false => rfl
    | true =>
      have hi := (pyContains_true_iff body fenceTok (by decide)).mp hcb
      exact ((hbt (hi.subset (by decide))).elim)
  have hloop : indicatorLoop false (pySplit newlineTok body) = [] :=
    indicatorLoop_eq_nil _ hind
  have hrep : pyReplace fenceTok [] body = body :=
    pyReplace_no_match fenceTok [] body
      (not_infix_of_btick_notMem fenceTok body (by decide) hbt)
  have hE : (pyStrip body).isEmpty = false := by
    cases hh : pyStrip body with
    | nil => exact absurd hh hne
    | cons a l => rfl
  have hRHS : parse_python_code body = some (pyStrip body) := by
    simp only [parse_python_code, hf1, hf2, Bool.false_eq_true, if_false,
      fallbackExtract, hloop, List.isEmpty_nil, if_true, hrep, hE]
  rw [hLHS, hRHS]

/-- C5 (counterexample): on a fenced block whose body mixes indicator lines
with other code, extraction from the fenced text keeps the whole body while
extraction from the unfenced text drops the leading line, so the claimed
equality fails. -/
theorem parse_python_code_not_idempotent :
    parse_python_code (fencePy ++ ("\nx = 1\nimport os\n").toList ++ fenceTok)
      ≠ parse_python_code (("\nx = 1\nimport os\n").toList) := by decide

/-- C5 (witness). -/
theorem parse_python_code_fence_idempotent_witness :
    parse_python_code (fencePy ++ ("\nhello world\n").toList ++ fenceTok)
      = parse_python_code (("\nhello world\n").toList) :=
  parse_python_code_fence_idempotent (("\nhello world\n").toList) (by decide)
    (by decide) (by decide)

/-- C10: `parse_python_code` is total — every list index taken after a split is
guarded, so no input makes it raise — and when no fence is present and no line
matches an indicator it returns the sanitized input, or the placeholder comment
when that strips to empty. -/
theorem parse_python_code_total (code : Str) :
    (parse_python_code code).isSome = true ∧
    (pyContains code fencePy = false → pyContains code fenceTok = false →
      indicatorLoop false (pySplit newlineTok code) = [] →
        parse_python_code code =
          some (if (pyStrip (pyReplace fenceTok [] code)).isEmpty then noCodeTok
                else pyStrip (pyReplace fenceTok [] code))) := by
  constructor
  · unfold parse_python_code
    cases hc1 : pyContains code fencePy with
    | true =>
      have hinf : fencePy <:+: code :=
        (pyContains_true_iff code fencePy (by decide)).mp hc1
      have h2 := two_le_pySplit_length_of_occurs fencePy code (by decide) hinf
      have hget1 : ∃ x, (pySplit fencePy code).get? 1 = some x := by
        cases hg : (pySplit fencePy code).get? 1 with
        | none =>
          have := List.get?_eq_none.mp hg
          omega
        | some x => exact ⟨x, rfl⟩
      obtain ⟨x, hx⟩ := hget1
      have hget0 : ∃ y, (pySplit fenceTok x).get? 0 = some y := by
        cases hg : (pySplit fenceTok x).get? 0 with
        | none =>
          have hlen := List.get?_eq_none.mp hg
          have hnn := pySplit_ne_nil fenceTok x
          cases hs : pySplit fenceTok x with
          | nil => exact absurd hs hnn
          | cons a l => rw [hs] at hlen; simp at hlen
        | some y => exact ⟨y, rfl⟩
      obtain ⟨y, hy⟩ := hget0
      rw [List.get?_eq_getElem?] at hx hy
      simp [hc1, hx, hy]
    | false =>
      cases hc2 : pyContains code fenceTok with
      | true =>
        by_cases h3 : 3 ≤ (pySplit fenceTok code).length
        · have hget1 : ∃ x, (pySplit fenceTok code).get? 1 = some x := by
            cases hg : (pySplit fenceTok code).get? 1 with
            | none =>
              have := List.get?_eq_none.mp hg
              omega
            | some x => exact ⟨x, rfl⟩
          obtain ⟨x, hx⟩ := hget1
          rw [List.get?_eq_getElem?] at hx
          by_cases hE : pyStrip x = []
          · simp [hc1, hc2, h3, hx, hE]
          · simp [hc1, hc2, h3, hx, hE]
        · simp [hc1, hc2, h3]
      | false => simp [hc1, hc2]
  · intro h1 h2 hloop
    simp only [parse_python_code, h1, h2, Bool.false_eq_true, if_false,
      fallbackExtract, hloop, List.isEmpty_nil, if_true]

/-- C10 (witness for the fallback clause). -/
theorem parse_python_code_total_witness :
    (parse_python_code (("hi there").toList)).isSome = true ∧
    parse_python_code (("hi there").toList) =
      some (if (pyStrip (pyReplace fenceTok [] (("hi there").toList))).isEmpty
            then noCodeTok
            else pyStrip (pyReplace fenceTok [] (("hi there").toList))) :=
  ⟨(parse_python_code_total (("hi there").toList)).1,
   (parse_python_code_total (("hi there").toList)).2 (by decide) (by decide)
     (by decide)⟩

/-! Membership characterizations for the executor's outputs. -/

/-- Every record of a completed `validate_queries` run comes from one input
pair whose execution returned a tuple (did not raise). -/
theorem validate_queries_ok_mem (env : Env) (db : Str) :
    ∀ (pairs : List PairDict) (rs : List ValidationResult),
      validate_queries env db pairs = Except.ok rs → ∀ r ∈ rs,
      ∃ pair ∈ pairs, ∃ q,
        execute_sql_query env db (pair.sql.getD []) = Except.ok q ∧
        r = { db_path := db
              question := pair.question.getD []
              query := pair.sql.getD []
              answer := if q.success then q.result else none
              is_valid := q.success
              error := if q.success then none else some q.error } := by
  intro pairs
  induction pairs with
  | nil =>
    intro rs h r hr
    simp only [validate_queries] at h
    have h0 : ([] : List ValidationResult) = rs := Except.ok.inj h
    rw [← h0] at hr
    exact absurd hr (List.not_mem_nil r)
  | cons pair rest ih =>
    intro rs h r hr
    simp only [validate_queries] at h
    cases hq : execute_sql_query env db (pair.sql.getD []) with
    | error m => rw [hq] at h; exact Except.noConfusion h
    | ok q =>
      rw [hq] at h
      dsimp only at h
      cases hrest : validate_queries env db rest with
      | error m => rw [hrest] at h; exact Except.noConfusion h
      | ok rs' =>
        rw [hrest] at h
        dsimp only at h
        have hcons := Except.ok.inj h
        rw [← hcons] at hr
        rcases List.mem_cons.mp hr with hre | htl
        · exact ⟨pair, List.mem_cons_self pair rest, q, hq, hre⟩
        · obtain ⟨pair', hm', q', hq', he'⟩ := ih rs' hrest r htl
          exact ⟨pair', List.mem_cons_of_mem pair hm', q', hq', he'⟩

/-- A completed `processDb` run is either the list of creation-failure records
or a completed `validate_queries` run. -/
theorem mem_processDb_cases (env : Env) (i : Nat) (info : DatabaseInfo)
    (rs : List ValidationResult)
    (hok : processDb env i info = Except.ok rs) :
    ((create_and_populate_database env info i).success = false ∧
      rs = (info.question_sql_pairs.getD ⟨[]⟩).questions.map (fun pair =>
        { db_path := (create_and_populate_database env info i).db_path
          question := pair.question.getD []
          query := pair.sql.getD []
          answer := none
          is_valid := false
          error := some (dbCreationFailedTok ++
            (create_and_populate_database env info i).error) })) ∨
    ((create_and_populate_database env info i).success = true ∧
      validate_queries env (create_and_populate_database env info i).db_path
        (info.question_sql_pairs.getD ⟨[]⟩).questions = Except.ok rs) := by
  unfold processDb at hok
  by_cases hs : (create_and_populate_database env info i).success = false
  · rw [if_pos hs] at hok
    exact Or.inl ⟨hs, (Except.ok.inj hok).symm⟩
  · rw [if_neg hs] at hok
    have htrue : (create_and_populate_database env info i).success = true := by
      cases hcc : (create_and_populate_database env info i).success with
      | false => exact absurd hcc hs
      | true => rfl
    exact Or.inr ⟨htrue, hok⟩

/-- Every record of a completed whole run comes from one indexed database whose
processing completed. -/
theorem mem_processFrom_ok (env : Env) :
    ∀ (l : List DatabaseInfo) (start : Nat) (out : List ValidationResult)
      (r : ValidationResult),
      processFrom env start l = Except.ok out → r ∈ out →
      ∃ j info rs, l.get? j = some info ∧
        processDb env (start + j) info = Except.ok rs ∧ r ∈ rs := by
  intro l
  induction l with
  | nil =>
    intro start out r h hr
    simp only [processFrom] at h
    have h0 : ([] : List ValidationResult) = out := Except.ok.inj h
    rw [← h0] at hr
    exact absurd hr (List.not_mem_nil r)
  | cons info0 rest ih =>
    intro start out r h hr
    simp only [processFrom] at h
    cases hdb : processDb env start info0 with
    | error m => rw [hdb] at h; exact Except.noConfusion h
    | ok rs0 =>
      rw [hdb] at h
      dsimp only at h
      cases hrest : processFrom env (start + 1) rest with
      | error m => rw [hrest] at h; exact Except.noConfusion h
      | ok out' =>
        rw [hrest] at h
        dsimp only at h
        have hout : rs0 ++ out' = out := Except.ok.inj h
        rw [← hout] at hr
        rcases List.mem_append.mp hr with h1 | h2
        · exact ⟨0, info0, rs0, rfl, by rwa [Nat.add_zero], h1⟩
        · obtain ⟨j, info', rs', hg, hpd, hm⟩ := ih (start + 1) out' r hrest h2
          refine ⟨j + 1, info', rs', hg, ?_, hm⟩
          have he : start + 1 + j = start + (j + 1) := by omega
          rwa [he] at hpd

/-- Conversely, when the whole run completes, the records of each completed
indexed database all appear in the output. -/
theorem processDb_subset_processFrom_ok (env : Env) :
    ∀ (l : List DatabaseInfo) (start j : Nat) (info : DatabaseInfo)
      (rs out : List ValidationResult),
      l.get? j = some info →
      processDb env (start + j) info = Except.ok rs →
      processFrom env start l = Except.ok out → ∀ r ∈ rs, r ∈ out := by
  intro l
  induction l with
  | nil => intro start j info rs out hg; simp at hg
  | cons info0 rest ih =>
    intro start j info rs out hg hpd hpf r hr
    simp only [processFrom] at hpf
    cases hdb : processDb env start info0 with
    | error m => rw [hdb] at hpf; exact Except.noConfusion hpf
    | ok rs0 =>
      rw [hdb] at hpf
      dsimp only at hpf
      cases hrest : processFrom env (start + 1) rest with
      | error m => rw [hrest] at hpf; exact Except.noConfusion hpf
      | ok out' =>
        rw [hrest] at hpf
        dsimp only at hpf
        have hout : rs0 ++ out' = out := Except.ok.inj hpf
        cases j with
        | zero =>
          have h0 : info0 = info := Option.some.inj hg
          subst h0
          rw [Nat.add_zero] at hpd
          have hrs : rs0 = rs := Except.ok.inj (hdb.symm.trans hpd)
          subst hrs
          rw [← hout]
          exact List.mem_append_left _ hr
        | succ j =>
          have hpd' : processDb env (start + 1 + j) info = Except.ok rs := by
            have he : start + 1 + j = start + (j + 1) := by omega
            rwa [he]
          rw [← hout]
          exact List.mem_append_right _
            (ih (start + 1) j info rs out' hg hpd' hrest r hr)

/-- C2: every record produced by the validator — whether made by executing
queries or made for a database whose creation failed — satisfies
`is_valid = true → error = null` and `is_valid = false → answer = null`. -/
theorem validation_records_nullability (env : Env) (db_path : Str)
    (pairs : List PairDict) (state : State) :
    (∀ rs, validate_queries env db_path pairs = Except.ok rs → ∀ r ∈ rs,
      (r.is_valid = true → r.error = none) ∧
      (r.is_valid = false → r.answer = none)) ∧
    (∀ out, process_main_graph_output env state = Except.ok out → ∀ r ∈ out,
      (r.is_valid = true → r.error = none) ∧
      (r.is_valid = false → r.answer = none)) := by
  have hv : ∀ (db : Str) (ps : List PairDict) (rs : List ValidationResult),
      validate_queries env db ps = Except.ok rs → ∀ r ∈ rs,
      (r.is_valid = true → r.error = none) ∧
      (r.is_valid = false → r.answer = none) := by
    intro db ps rs hok r hr
    obtain ⟨pair, hm, q, hq, he⟩ := validate_queries_ok_mem env db ps rs hok r hr
    subst he
    cases hs : q.success <;> simp [hs]
  refine ⟨fun rs hok r hr => hv db_path pairs rs hok r hr, ?_⟩
  intro out hok r hr
  obtain ⟨j, info, rs, hg, hpd, hm⟩ :=
    mem_processFrom_ok env state.databases 0 out r hok hr
  rcases mem_processDb_cases env (0 + j) info rs hpd with ⟨hf, hrs⟩ | ⟨ht, hvq⟩
  · subst hrs
    obtain ⟨pair, hpm, he⟩ := List.mem_map.mp hm
    rw [← he]
    simp
  · exact hv _ _ rs hvq r hm

/-- C2 (witness). -/
theorem validation_records_nullability_witness :
    ((recSelectOk.is_valid = true → recSelectOk.error = none) ∧
     (recSelectOk.is_valid = false → recSelectOk.answer = none)) ∧
    ((recCreateFailed.is_valid = true → recCreateFailed.error = none) ∧
     (recCreateFailed.is_valid = false → recCreateFailed.answer = none)) :=
  ⟨(validation_records_nullability benignEnv [] [pair1]
      ⟨[], [partialInfoWithPair], 1⟩).1 [recSelectOk] rfl recSelectOk
      (by decide),
   (validation_records_nullability benignEnv [] [pair1]
      ⟨[], [partialInfoWithPair], 1⟩).2 [recCreateFailed] rfl recCreateFailed
      (by decide)⟩

/-- C4 (code bug): on a database path whose `sqlite3.connect` fails, the
`except` handler of `_execute_sql_query` evaluates `conn.close()` with `conn`
unbound; the resulting `UnboundLocalError` escapes the handler's
`except (sqlite3.Error, AttributeError)` guard and propagates, so
`validate_queries` aborts the batch with no records instead of converting the
exception into one `(is_valid = false, error = message)` record per pair. -/
theorem connect_failure_aborts_validation :
    validate_queries connFailEnv (("/nonexistent/db.db").toList) [pair1]
      = Except.error unboundLocalConnTok := rfl

/-- C8: a successfully executed SELECT-like statement answers with all fetched
rows (and does not commit); any other successfully executed statement answers
with the affected-row count and commits the transaction. -/
theorem execute_sql_query_classifies (env : Env) (db_path q : Str)
    (hconn : env.connectErr db_path = none)
    (hexec : env.executeErr db_path q = none) :
    (isSelectLike q = true →
      execute_sql_query env db_path q =
        Except.ok ⟨true, some (Answer.rows (env.fetchall db_path q)), [], false⟩) ∧
    (isSelectLike q = false →
      execute_sql_query env db_path q =
        Except.ok ⟨true, some (Answer.count (env.rowcount db_path q)), [], true⟩) := by
  unfold execute_sql_query
  rw [hconn, hexec]
  constructor
  · intro h; simp [h]
  · intro h; simp [h]

/-- C8 (witness): a SELECT and an UPDATE. -/
theorem execute_sql_query_classifies_witness :
    execute_sql_query benignEnv (("db.db").toList)
        (("SELECT COUNT(*) FROM Customers").toList) =
      Except.ok ⟨true, some (Answer.rows []), [], false⟩ ∧
    execute_sql_query benignEnv (("db.db").toList)
        (("UPDATE t SET a = 1").toList) =
      Except.ok ⟨true, some (Answer.count 0), [], true⟩ :=
  ⟨(execute_sql_query_classifies benignEnv (("db.db").toList)
      (("SELECT COUNT(*) FROM Customers").toList) rfl rfl).1 (by decide),
   (execute_sql_query_classifies benignEnv (("db.db").toList)
      (("UPDATE t SET a = 1").toList) rfl rfl).2 (by decide)⟩

/-- C9: on every exit path of `create_and_populate_database` — success,
reported failure, and raised exception — the temporary files removed by the
`finally` block are exactly the temporary files the call created. -/
theorem create_and_populate_database_removes_temps (env : Env)
    (info : DatabaseInfo) (i : Nat) :
    (create_and_populate_database env info i).tempsRemoved =
      (create_and_populate_database env info i).tempsCreated := by
  unfold create_and_populate_database
  dsimp only
  cases h0 : (if env.dbExists i then env.dbUnlinkErr i else none) with
  | some m => rfl
  | none =>
    cases h1 : info.database_models with
    | none => rfl
    | some mcode =>
      cases h2 : env.mkTemp i 0 with
      | err m => rfl
      | ok models_file =>
        dsimp only
        by_cases h3 :
            (execute_python_file env models_file mcode (dbFilePath env i) none).1
              = false
        · rw [if_pos h3]
        · rw [if_neg h3]
          cases h4 : info.populate_database_script with
          | none => rfl
          | some pcode =>
            dsimp only
            cases h5 : env.mkTemp i 1 with
            | err m => rfl
            | ok populate_file =>
              dsimp only
              by_cases h6 :
                  (execute_python_file env populate_file pcode (dbFilePath env i)
                    (some models_file)).1 = false
              · rw [if_pos h6]
              · rw [if_neg h6]

/-- C1: when the checkpoint file exists at startup, the main generation graph —
the sole LLM-calling path — is never invoked, and the pipeline state used
thereafter, including its `company_descriptions` and `databases` arrays, is
the parsed contents of the checkpoint file. -/
theorem checkpoint_short_circuits (env : MainEnv) (n : Nat)
    (h : env.stateFileExists = true) :
    (loadOrGenerateState env n).2 = false ∧
    (loadOrGenerateState env n).1 = env.stateOnDisk ∧
    (loadOrGenerateState env n).1.company_descriptions =
      env.stateOnDisk.company_descriptions ∧
    (loadOrGenerateState env n).1.databases = env.stateOnDisk.databases := by
  unfold loadOrGenerateState
  rw [h]
  simp

/-- C1 (witness). -/
theorem checkpoint_short_circuits_witness :
    (loadOrGenerateState mainEnvW 5).2 = false ∧
    (loadOrGenerateState mainEnvW 5).1 = stateDisk ∧
    (loadOrGenerateState mainEnvW 5).1.company_descriptions =
      stateDisk.company_descriptions ∧
    (loadOrGenerateState mainEnvW 5).1.databases = stateDisk.databases :=
  checkpoint_short_circuits mainEnvW 5 rfl

/-- C3 (counterexample): for an artifact whose three generation sub-stages all
failed (every key absent, hence in particular no question list), creation fails
and yet the pipeline output contains no record at all for it — the partial
artifact is silently dropped, with no failure record. -/
theorem partial_artifact_silently_dropped :
    (create_and_populate_database benignEnv emptyInfo 0).success = false ∧
    process_main_graph_output benignEnv ⟨[], [emptyInfo], 1⟩ = Except.ok [] :=
  ⟨rfl, rfl⟩

/-- C3 (amended): for every artifact in the aggregated state whose schema code
or population script is missing, SQL validation is never attempted against it
(creation fails and its output is exactly the creation-failure records), and —
provided its question/SQL list is present and nonempty — the output dataset
contains one explanatory failure record per question pair, all of which appear
in the final output whenever the whole run completes; an artifact whose
question list is absent or empty instead contributes no records. -/
theorem partial_artifact_reported_not_validated (env : Env) (state : State)
    (i : Nat) (info : DatabaseInfo) (qd : QuestionsDict)
    (hget : state.databases.get? i = some info)
    (hmiss : info.database_models = none ∨
      info.populate_database_script = none)
    (hq : info.question_sql_pairs = some qd)
    (hne : qd.questions ≠ []) :
    (create_and_populate_database env info i).success = false ∧
    processDb env i info = Except.ok (qd.questions.map (fun pair =>
      { db_path := (create_and_populate_database env info i).db_path
        question := pair.question.getD []
        query := pair.sql.getD []
        answer := none
        is_valid := false
        error := some (dbCreationFailedTok ++
          (create_and_populate_database env info i).error) })) ∧
    processDb env i info ≠ Except.ok [] ∧
    (∀ rs, processDb env i info = Except.ok rs →
      ∀ out, process_main_graph_output env state = Except.ok out →
        ∀ r ∈ rs, r ∈ out) := by
  have hfail : (create_and_populate_database env info i).success = false := by
    unfold create_and_populate_database
    dsimp only
    cases h0 : (if env.dbExists i then env.dbUnlinkErr i else none) with
    | some m => rfl
    | none =>
      rcases hmiss with hm | hp
      · rw [hm]
      · cases h1 : info.database_models with
        | none => rfl
        | some mcode =>
          cases h2 : env.mkTemp i 0 with
          | err m => rfl
          | ok models_file =>
            dsimp only
            by_cases h3 :
                (execute_python_file env models_file mcode (dbFilePath env i)
                  none).1 = false
            · rw [if_pos h3]
            · rw [if_neg h3, hp]
  have hmap : processDb env i info = Except.ok (qd.questions.map (fun pair =>
      { db_path := (create_and_populate_database env info i).db_path
        question := pair.question.getD []
        query := pair.sql.getD []
        answer := none
        is_valid := false
        error := some (dbCreationFailedTok ++
          (create_and_populate_database env info i).error) })) := by
    unfold processDb
    dsimp only
    rw [hq]
    rw [if_pos hfail]
    rfl
  refine ⟨hfail, hmap, ?_, ?_⟩
  · rw [hmap]
    intro hcontra
    have hmn := Except.ok.inj hcontra
    cases hq2 : qd.questions with
    | nil => exact hne hq2
    | cons a l =>
      rw [hq2] at hmn
      simp at hmn
  · intro rs hok out hout r hr
    have hzero : (0 : Nat) + i = i := Nat.zero_add i
    have hok' : processDb env (0 + i) info = Except.ok rs := by rwa [hzero]
    exact processDb_subset_processFrom_ok env state.databases 0 i info rs out
      hget hok' hout r hr

/-- C3 (witness). -/
theorem partial_artifact_reported_not_validated_witness :
    (create_and_populate_database benignEnv partialInfoWithPair 0).success
      = false ∧
    processDb benignEnv 0 partialInfoWithPair ≠ Except.ok [] :=
  ⟨(partial_artifact_reported_not_validated benignEnv
      ⟨[], [partialInfoWithPair], 1⟩ 0 partialInfoWithPair ⟨[pair1]⟩
      rfl (Or.inl rfl) (by decide) (by decide)).1,
   (partial_artifact_reported_not_validated benignEnv
      ⟨[], [partialInfoWithPair], 1⟩ 0 partialInfoWithPair ⟨[pair1]⟩
      rfl (Or.inl rfl) (by decide) (by decide)).2.2.1⟩

/-- C7: when the schema script succeeds but the population script exits with a
non-zero return code, every record emitted for that database is invalid with a
null answer and an error containing both `Failed to populate database` and the
captured stderr. -/
theorem populate_failure_records (env : Env) (info : DatabaseInfo) (i : Nat)
    (mcode pcode : Str) (mf pf : Str)
    (rc : Int) (pout perr sout serr : Str)
    (hm : info.database_models = some mcode)
    (hp : info.populate_database_script = some pcode)
    (hdb : (if env.dbExists i then env.dbUnlinkErr i else none) = none)
    (ht0 : env.mkTemp i 0 = TempResult.ok mf)
    (ht1 : env.mkTemp i 1 = TempResult.ok pf)
    (hr1 : env.run mf (scriptArgs (env.rewrite (dbFilePath env i) mcode) none
      (dbFilePath env i)) = RunOutcome.completed 0 sout serr)
    (hr2 : env.run pf (scriptArgs (env.rewrite (dbFilePath env i) pcode)
      (some mf) (dbFilePath env i)) = RunOutcome.completed rc pout perr)
    (hrc : rc ≠ 0) :
    ∀ rs, processDb env i info = Except.ok rs → ∀ r ∈ rs,
      r.is_valid = false ∧ r.answer = none ∧
      ∃ e, r.error = some e ∧
        ("Failed to populate database").toList <:+: e ∧ perr <:+: e := by
  have hexec1 : execute_python_file env mf mcode (dbFilePath env i) none
      = (true, []) := by
    unfold execute_python_file
    dsimp only
    rw [hr1]
    rfl
  have hexec2 : execute_python_file env pf pcode (dbFilePath env i) (some mf)
      = (false, scriptFailMsg rc pout perr) := by
    unfold execute_python_file
    dsimp only
    rw [hr2]
    dsimp only
    rw [if_neg hrc]
  have hcreate : create_and_populate_database env info i =
      ⟨dbFilePath env i, false, popFailTok ++ scriptFailMsg rc pout perr,
        [mf, pf], [mf, pf]⟩ := by
    unfold create_and_populate_database
    dsimp only
    rw [hdb, hm, ht0]
    dsimp only
    rw [hexec1]
    simp only [Prod.fst]
    rw [if_neg (by simp)]
    rw [hp, ht1]
    dsimp only
    rw [hexec2]
    rw [if_pos (by simp)]
  intro rs hok r hr
  unfold processDb at hok
  dsimp only at hok
  rw [hcreate] at hok
  dsimp only at hok
  rw [if_pos rfl] at hok
  have hrs := Except.ok.inj hok
  rw [← hrs] at hr
  obtain ⟨pair, hpm, he⟩ := List.mem_map.mp hr
  subst he
  refine ⟨rfl, rfl, dbCreationFailedTok ++ (popFailTok ++ scriptFailMsg rc pout perr), rfl, ?_, ?_⟩
  · refine ⟨dbCreationFailedTok, (": ").toList ++ scriptFailMsg rc pout perr, ?_⟩
    rw [show popFailTok = ("Failed to populate database").toList ++ (": ").toList
      from by decide]
    simp [List.append_assoc]
  · by_cases hperr : perr = []
    · subst hperr
      exact List.nil_infix
    · have hpe : perr.isEmpty = false := by
        cases perr with
        | nil => exact absurd rfl hperr
        | cons a l => rfl
      refine ⟨dbCreationFailedTok ++ popFailTok ++ scriptFailTok ++ intStr rc
          ++ stderrTok,
        (if pout.isEmpty then [] else stdoutTok ++ pout), ?_⟩
      simp [scriptFailMsg, hpe, List.append_assoc]

/-- C7 (witness). -/
theorem populate_failure_records_witness :
    recPopFail.is_valid = false ∧ recPopFail.answer = none ∧
    ∃ e, recPopFail.error = some e ∧
      ("Failed to populate database").toList <:+: e ∧
      ("IntegrityError").toList <:+: e :=
  populate_failure_records popFailEnv fullInfo 0 (("schema code").toList)
    (("populate code").toList) (("m.py").toList) (("p.py").toList)
    1 [] (("IntegrityError").toList) [] []
    rfl rfl rfl (by decide) (by decide) (by decide) (by decide)
    (by decide) [recPopFail] rfl recPopFail (by decide)
